import Mathlib

/-!
Shallow embedding of the evaluator core of the S5-MiniShell repository
(src/Evaluation.c, with the expression-tree interface of src/Shell.c),
and proofs about it.

The embedding is a deterministic state-passing translation of the C code:
every kernel interaction (fork, waitpid, open, dup, dup2, close, pipe2,
kill, tcsetpgrp, chdir) is either recorded as an event or resolved through
an explicit oracle carried in the state (fork pids, foreground wait
results, reaper reports, syscall success flags), so that every C control
path is reachable by choosing a concrete oracle.
-/

/-! ## Basic constants (Evaluation.c helpers section) -/

/-- The NUL character used as the C string terminator. -/
def nulc : Char := Char.ofNat 0

/-- INTERNSTATUS: the internal asynchronous-status sentinel, -128. -/
def INTERNSTATUS : Int := -128

/-- The STATUS macro: a negative status is shifted by subtracting the
sentinel (s - (-128) = s + 128); a nonnegative one is unchanged. -/
def STATUS (s : Int) : Int := if s < 0 then s - INTERNSTATUS else s

/-- C INT_MAX, the modulus used inside hash_cmd. -/
def INT_MAX : Int := 2147483647

/-- Wrap an integer into the signed 32-bit range, modelling the
(in practice wrapping) overflow of a C int. -/
def wrap32 (x : Int) : Int := (x + 2 ^ 31) % 2 ^ 32 - 2 ^ 31

/-- Loop body of hash_cmd: hash = (hash + c * i) % INT_MAX; i *= 7,
with each int operation wrapped to 32 bits and % being C truncated
remainder (Int.tmod). -/
def hashAux : List Char → Int → Int → Int
  | [], hash, _ => hash
  | c :: cs, hash, i =>
      hashAux cs (Int.tmod (wrap32 (hash + wrap32 ((c.toNat : Int) * i))) INT_MAX)
        (wrap32 (i * 7))

/-- hash_cmd: the additive command-name hash of Evaluation.c. -/
def hash_cmd (s : String) : Int := hashAux s.data 0 7

/-- Hash constant for the cd command. -/
def CD : Int := 0x15d9

/-- Hash constant for the bg command. -/
def CBG : Int := 0x1665

/-- Hash constant for the fg command. -/
def CFG : Int := 0x1681

/-- Hash constant for the hash command. -/
def HASHC : Int := 0x47ee6

/-- Hash constant for the help command. -/
def HELP : Int := 0x4c151

/-- Hash constant for the echo command. -/
def ECHO : Int := 0x4b21d

/-- Hash constant for the exit command. -/
def EXIT : Int := 0x4e65e

/-- Hash constant for the jobs command. -/
def JOBS : Int := 0x4d206

/-- Hash constant for the echo status token. -/
def ECHO_STATUS : Int := 0xd0b

/-! ## Job table data model -/

/-- JFG: job placed in the foreground. -/
def JFG : Nat := 0

/-- JBG: job placed in the background. -/
def JBG : Nat := 1

/-- Maximum number of concurrent jobs. -/
def MAXJOBS : Nat := 32

/-- Size of the per-job command name buffer. -/
def CMDBUFSZ : Nat := 16

/-- Job states (enum state_t): JDONE = 0, JRUNNING = 1, JSTOPPED = 2. -/
inductive JState where
  | JDONE
  | JRUNNING
  | JSTOPPED
deriving DecidableEq, Repr

/-- A job-table slot (struct job). The cmd buffer is a list of exactly
CMDBUFSZ characters. -/
structure Job where
  jid : Nat
  pid : Nat
  pgid : Nat
  background : Nat
  state : JState
  status : Int
  termsig : Nat
  cmd : List Char
deriving DecidableEq, Repr

/-- The all-zero slot produced by the initial memset of the job table
(state 0 is JDONE, background 0 is JFG, cmd all NUL). -/
def initJob : Job :=
  { jid := 0, pid := 0, pgid := 0, background := JFG, state := JState.JDONE,
    status := 0, termsig := 0, cmd := List.replicate CMDBUFSZ nulc }

/-- Read slot i of the job table (out-of-range reads return the zero
slot; the table always has MAXJOBS entries in reachable states). -/
def jobAt (jobs : List Job) (i : Nat) : Job := jobs.getD i initJob

/-- The copy loop of register_job: for j in 0..CMDBUFSZ-1 the j-th byte
of cmd is stored, stopping right after a NUL terminator is stored.
old is the previous content of the slot buffer, cmd the characters of
the argument before its terminator. When cmd has CMDBUFSZ or more
characters the loop ends without ever storing a terminator. -/
def storeCmd : List Char → List Char → List Char
  | [], _ => []
  | _ :: old, c :: cs => c :: storeCmd old cs
  | _ :: old, [] => nulc :: old

/-- register_job: linear scan for the first slot with pid == 0;
initialize it (state RUNNING, jid = slot index, cmd copied when
non-null). Returns the slot index and the updated table, or none (the C
NULL) when the table is full. status and termsig are not written. -/
def register_job (jobs : List Job) (pid pgid background : Nat)
    (cmd : Option (List Char)) : Option (Nat × List Job) :=
  match jobs.findIdx? (fun j => j.pid == 0) with
  | none => none
  | some i =>
      let j := jobAt jobs i
      let j :=
        { j with jid := i, pid := pid, pgid := pgid, background := background,
                 state := JState.JRUNNING,
                 cmd := match cmd with
                        | some c => storeCmd j.cmd c
                        | none => j.cmd }
      some (i, jobs.set i j)

/-- unregister_job: clears pid, jid, status and termsig; state,
background, pgid and the cmd buffer are left as they were. -/
def unregister_job (j : Job) : Job :=
  { j with pid := 0, jid := 0, status := 0, termsig := 0 }

/-- set_status_job: decode a wait status into the slot. An exit stores
the exit code and marks DONE; a stop stores status 0 and marks STOPPED
(background is not touched); a terminating signal marks DONE and stores
the signal number. -/
inductive WaitKind where
  | exited (code : Nat)
  | stopped (sig : Nat)
  | signaled (sig : Nat)
deriving DecidableEq, Repr

/-- The body of set_status_job on a decoded wait status. -/
def set_status_job (j : Job) : WaitKind → Job
  | WaitKind.exited c => { j with status := (c : Int), state := JState.JDONE }
  | WaitKind.stopped _ => { j with status := 0, state := JState.JSTOPPED }
  | WaitKind.signaled sg => { j with state := JState.JDONE, termsig := sg }

/-! ## Process-wide state and recorded kernel interactions -/

/-- The signals the shell manipulates, kept symbolic. -/
inductive Signo where
  | SIGCHLD
  | SIGINT
  | SIGTSTP
  | SIGTTIN
  | SIGTTOU
  | SIGCONT
deriving DecidableEq, Repr

/-- Numeric signal values as stored in termsig and compared against in
evaluer_expr (Linux numbers for the three signals the code names there). -/
def SIGSEGVn : Nat := 11

/-- Numeric SIGKILL. -/
def SIGKILLn : Nat := 9

/-- Numeric SIGTERM. -/
def SIGTERMn : Nat := 15

/-- Target of a kill call: the C kill with a positive pid argument
signals a single process; signalling a whole process group would pass
the negated group id (or use killpg). The embedding records which form
the code used. -/
inductive KillTarget where
  | toProcess (pid : Nat)
  | toGroup (pgid : Nat)
deriving DecidableEq, Repr

/-- Kernel interactions recorded by the embedding. -/
inductive Event where
  | forkExec (pid : Nat) (cmd : String)
  | kill (tgt : KillTarget) (sg : Signo)
  | setpgidEv (pid : Nat) (pgid : Nat)
  | tcsetEv (pgid : Nat)
  | setSigDfl
  | setSigAct
  | chdirEv (dir : String)
  | exitShell
deriving DecidableEq, Repr

/-- Result of the non-blocking reap probe of grim_reaper on one slot:
a reported wait event, no event with the process still alive, or no
event with the kill-zero probe reporting ESRCH. -/
inductive ReapRes where
  | event (w : WaitKind)
  | alive
  | gone
deriving DecidableEq, Repr

/-- The whole mutable state of the shell process, plus the oracles that
resolve the nondeterministic kernel answers (fork pids, foreground wait
statuses, reaper probe results, chdir outcomes, and a success flag per
file-descriptor syscall) and the observable outputs (stdout, stderr and
the recorded events). fds maps a descriptor number to the kernel file
description it refers to; nextDesc numbers fresh descriptions. -/
structure St where
  interactive : Bool
  shpid : Nat
  fds : List (Nat × Nat)
  nextDesc : Nat
  sysOk : List Bool
  jobs : List Job
  lastJob : Option Nat
  fgJob : Option Nat
  laststatus : Int
  pids : List Nat
  waits : List WaitKind
  reaps : List ReapRes
  chdirOks : List Bool
  out : String
  errOut : String
  events : List Event
deriving DecidableEq, Repr

/-- Append a recorded event. -/
def addEvent (st : St) (e : Event) : St := { st with events := st.events ++ [e] }

/-- Pop the next fork pid from the oracle (fork failure only perrors in
the source and is not taken here; the oracle always supplies a pid). -/
def popPid (st : St) : Nat × St :=
  match st.pids with
  | [] => (1, st)
  | p :: r => (p, { st with pids := r })

/-- Pop the next foreground waitpid result from the oracle. -/
def popWait (st : St) : WaitKind × St :=
  match st.waits with
  | [] => (WaitKind.exited 0, st)
  | w :: r => (w, { st with waits := r })

/-- Pop the next reaper probe result from the oracle. -/
def popReap (st : St) : ReapRes × St :=
  match st.reaps with
  | [] => (ReapRes.alive, st)
  | w :: r => (w, { st with reaps := r })

/-- Pop the next chdir outcome from the oracle. -/
def popChdir (st : St) : Bool × St :=
  match st.chdirOks with
  | [] => (true, st)
  | b :: r => (b, { st with chdirOks := r })

/-- Pop the success flag for the next fallible descriptor syscall. -/
def popOk (st : St) : Bool × St :=
  match st.sysOk with
  | [] => (true, st)
  | b :: r => (b, { st with sysOk := r })

/-! ## File-descriptor syscall models -/

/-- The kernel description a descriptor currently refers to. -/
def fdLookup (st : St) (fd : Nat) : Option Nat :=
  (st.fds.find? (fun p => p.1 == fd)).map (fun p => p.2)

/-- The lowest descriptor number not currently open (what open, dup and
pipe2 return). -/
def lowestFree (st : St) : Nat :=
  ((List.range (st.fds.length + 1)).find? (fun n => (fdLookup st n).isNone)).getD 0

/-- Point descriptor fd at description d (any previous binding of fd is
replaced, as dup2 does). -/
def fdSet (st : St) (fd : Nat) (d : Nat) : St :=
  { st with fds := (fd, d) :: st.fds.filter (fun p => p.1 ≠ fd) }

/-- dup: returns a fresh lowest-numbered descriptor for the same
description, or none on failure. -/
def dupFd (st : St) (fd : Nat) : Option Nat × St :=
  let (ok, st) := popOk st
  match fdLookup st fd with
  | none => (none, st)
  | some d =>
      if ok then
        let nf := lowestFree st
        (some nf, { st with fds := (nf, d) :: st.fds })
      else (none, st)

/-- dup2 old new: rebinds new to old's description; true on success. -/
def dup2Fd (st : St) (old new : Nat) : Bool × St :=
  let (ok, st) := popOk st
  match fdLookup st old with
  | none => (false, st)
  | some d => if ok then (true, fdSet st new d) else (false, st)

/-- close: removes the binding of fd; returns false when the oracle makes
the call fail (in which case nothing is closed) or fd was not open. -/
def closeFd (st : St) (fd : Nat) : Bool × St :=
  let (ok, st) := popOk st
  if ok then
    ((fdLookup st fd).isSome, { st with fds := st.fds.filter (fun p => p.1 ≠ fd) })
  else (false, st)

/-- open: binds the lowest free descriptor to a fresh description.
The open flags chosen by lay_redirection select file content behavior
and close-on-exec, which do not affect the descriptor table and are not
modelled. -/
def openFd (st : St) (_file : String) : Option Nat × St :=
  let (ok, st) := popOk st
  if ok then
    let nf := lowestFree st
    (some nf, { st with fds := (nf, st.nextDesc) :: st.fds, nextDesc := st.nextDesc + 1 })
  else (none, st)

/-- pipe2: two fresh descriptors on two fresh descriptions (read end
first, then write end). -/
def pipe2M (st : St) : Option (Nat × Nat) × St :=
  let (ok, st) := popOk st
  if ok then
    let r := lowestFree st
    let st1 := { st with fds := (r, st.nextDesc) :: st.fds }
    let w := lowestFree st1
    (some (r, w),
      { st1 with fds := (w, st.nextDesc + 1) :: st1.fds, nextDesc := st.nextDesc + 2 })
  else (none, st)

/-! ## Job-control operations on the shell state -/

/-- Write job j into slot i of the table. -/
def setJob (st : St) (i : Nat) (j : Job) : St := { st with jobs := st.jobs.set i j }

/-- The printable prefix of a cmd buffer: the characters before the
first NUL. On a buffer that lost its terminator this reads exactly the
CMDBUFSZ stored bytes (the C code would keep reading memory past the
buffer; the embedding stops at its end). -/
def bufStr (b : List Char) : String := String.mk (b.takeWhile (fun c => c ≠ nulc))

/-- display_job: the line printed for one slot. -/
def display_job (j : Job) : String :=
  let strstate : String :=
    if j.state = JState.JDONE then "Done"
    else if j.state = JState.JSTOPPED then "Suspended"
    else "Running"
  "[" ++ toString j.jid ++ "]+ " ++ strstate ++ "\t" ++ bufStr j.cmd ++
    "\tPID: " ++ toString j.pid ++
    (if j.state = JState.JDONE then
      (if j.termsig ≠ 0 then "\tTerminated with signal " ++ toString j.termsig ++ "\n"
       else "\tExit " ++ toString j.status ++ "\n")
     else "\n")

/-- suspend_job: send SIGTSTP to the job's process, mark it STOPPED and
background, and make it last_job. -/
def suspend_job (st : St) (i : Nat) : St :=
  let j := jobAt st.jobs i
  let st := addEvent st (Event.kill (KillTarget.toProcess j.pid) Signo.SIGTSTP)
  let st := setJob st i { j with state := JState.JSTOPPED, background := JBG }
  { st with lastJob := some i }

/-- send_to_foreground: default handlers, hand the terminal to the job
(tcsetpgrp on its pid), record it as fg_job, continue it if stopped,
block on waitpid (oracle), decode the status into the slot, restore the
shell handlers and reclaim the terminal. -/
def send_to_foreground (st : St) (i : Nat) : St :=
  let st := addEvent st Event.setSigDfl
  let st := if st.interactive then addEvent st (Event.tcsetEv (jobAt st.jobs i).pid) else st
  let st := { st with fgJob := some i }
  let st :=
    if (jobAt st.jobs i).state = JState.JSTOPPED then
      addEvent st (Event.kill (KillTarget.toProcess (jobAt st.jobs i).pid) Signo.SIGCONT)
    else st
  let (w, st) := popWait st
  let st := setJob st i (set_status_job (jobAt st.jobs i) w)
  let st := addEvent st Event.setSigAct
  if st.interactive then addEvent st (Event.tcsetEv st.shpid) else st

/-- send_to_background: continue the job if stopped, mark it RUNNING and
make it last_job. -/
def send_to_background (st : St) (i : Nat) : St :=
  let st :=
    if (jobAt st.jobs i).state = JState.JSTOPPED then
      addEvent st (Event.kill (KillTarget.toProcess (jobAt st.jobs i).pid) Signo.SIGCONT)
    else st
  let st := setJob st i { jobAt st.jobs i with state := JState.JRUNNING }
  { st with lastJob := some i }

/-- launch_job: force the slot to STOPPED, give the child its own group
(parent side of the setpgid race), then dispatch on background, printing
the background banner when notify is set. -/
def launch_job (st : St) (i : Nat) (notify : Bool) : St :=
  let st := setJob st i { jobAt st.jobs i with state := JState.JSTOPPED }
  let j := jobAt st.jobs i
  let st := addEvent st (Event.setpgidEv j.pid j.pid)
  if j.background = JFG then send_to_foreground st i
  else
    let st := send_to_background st i
    if notify then
      { st with out := st.out ++ "[" ++ toString j.jid ++ "] " ++ toString j.pid ++ "\n" }
    else st

/-- One slot step of grim_reaper: slots with a live pid are probed; a
reported wait event is decoded into the slot; a probe that finds the
process gone (ESRCH) unregisters the slot. -/
def reapSlot (st : St) (i : Nat) : St :=
  if (jobAt st.jobs i).pid > 0 then
    let (r, st) := popReap st
    match r with
    | ReapRes.event w => setJob st i (set_status_job (jobAt st.jobs i) w)
    | ReapRes.alive => st
    | ReapRes.gone => setJob st i (unregister_job (jobAt st.jobs i))
  else st

/-- grim_reaper: probe every slot in index order. -/
def grim_reaper (st : St) : St := (List.range MAXJOBS).foldl reapSlot st

/-- remove_old_jobs: unregister every occupied DONE slot, displaying it
first when notify is set and the job was in the background. -/
def remove_old_jobs (st : St) (notify : Bool) : St :=
  (List.range MAXJOBS).foldl
    (fun st i =>
      let j := jobAt st.jobs i
      if j.pid ≠ 0 ∧ j.state = JState.JDONE then
        let st :=
          if notify ∧ j.background = JBG then { st with out := st.out ++ display_job j }
          else st
        setJob st i (unregister_job (jobAt st.jobs i))
      else st)
    st

/-- sig_handler: the shell's signal handler. SIGCHLD runs the reaper;
SIGINT is forwarded to the foreground job's process; SIGTSTP suspends
the foreground job; SIGTTIN and SIGTTOU reclaim the terminal. -/
def sig_handler (st : St) (signo : Signo) : St :=
  match signo with
  | Signo.SIGCHLD => grim_reaper st
  | Signo.SIGINT =>
      match st.fgJob with
      | none => st
      | some i =>
          addEvent st (Event.kill (KillTarget.toProcess (jobAt st.jobs i).pid) Signo.SIGINT)
  | Signo.SIGTSTP =>
      match st.fgJob with
      | none => st
      | some i => suspend_job st i
  | Signo.SIGTTIN => addEvent st (Event.tcsetEv st.shpid)
  | Signo.SIGTTOU => addEvent st (Event.tcsetEv st.shpid)
  | Signo.SIGCONT => st

/-! ## fg and bg (cmd_jobctrl) -/

/-- A slot is a live job-control target: occupied and not DONE. -/
def activeAt (jobs : List Job) (i : Nat) : Bool :=
  (jobAt jobs i).pid ≠ 0 && (jobAt jobs i).state ≠ JState.JDONE

/-- The rescan loop of cmd_jobctrl: the first occupied non-DONE slot. -/
def findFirstActive (jobs : List Job) : Option Nat :=
  (List.range MAXJOBS).find? (fun i => activeAt jobs i)

/-- One step of the most-recent scan of cmd_jobctrl: an occupied
non-DONE slot whose pid is at least the current candidate's pid replaces
the candidate. -/
def maxStep (jobs : List Job) (t i : Nat) : Nat :=
  if activeAt jobs i && decide ((jobAt jobs t).pid ≤ (jobAt jobs i).pid) then i else t

/-- The most-recent scan of cmd_jobctrl, starting from candidate t0. -/
def maxScan (jobs : List Job) (t0 : Nat) : Nat :=
  (List.range MAXJOBS).foldl (maxStep jobs) t0

/-- The default-target selection of cmd_jobctrl when no name is given:
when last_job is null or DONE it is first re-pointed at the first
occupied non-DONE slot (when one exists); when the result is still null
or DONE the selection fails; otherwise the candidate runs through the
highest-pid scan. Returns the selected slot (none = the error path) and
the possibly updated last_job. -/
def jcSelect (jobs : List Job) (lj : Option Nat) : Option Nat × Option Nat :=
  let needRescan :=
    match lj with
    | none => true
    | some k => (jobAt jobs k).state = JState.JDONE
  let lj1 :=
    if needRescan then
      match findFirstActive jobs with
      | some i => some i
      | none => lj
    else lj
  match lj1 with
  | none => (none, lj1)
  | some k =>
      if (jobAt jobs k).state = JState.JDONE then (none, lj1)
      else (some (maxScan jobs k), lj1)

/-- The strcmp of cmd_jobctrl between a slot's cmd buffer and the
argument (equal when the buffer's NUL-terminated prefix is the string). -/
def cmdEq (b : List Char) (s : String) : Bool := bufStr b == s

/-- cmd_jobctrl: the fg and bg built-ins. job_cmd is argv[1] (none = no
name given); bg is JBG for bg and JFG for fg. -/
def cmd_jobctrl (st : St) (job_cmd : Option String) (bg : Nat) : Int × St :=
  match job_cmd with
  | some name =>
      match (List.range MAXJOBS).find?
          (fun i => cmdEq (jobAt st.jobs i).cmd name && (jobAt st.jobs i).pid ≠ 0) with
      | some i =>
          let tmp := jobAt st.jobs i
          if bg = JBG ∧ tmp.state = JState.JRUNNING then
            (1, { st with errOut := st.errOut ++ bufStr tmp.cmd ++ ": job already in background\n" })
          else
            let st := { st with out := st.out ++ "[" ++ toString tmp.jid ++ "]+ Resumed\t" ++ bufStr tmp.cmd ++ "\n" }
            if bg = JBG then (0, send_to_background st i) else (0, send_to_foreground st i)
      | none =>
          (1, { st with errOut := st.errOut ++ (if bg = JBG then "bg" else "fg") ++ ": job not found: " ++ name ++ "\n" })
  | none =>
      match jcSelect st.jobs st.lastJob with
      | (none, lj1) =>
          (1, { st with lastJob := lj1,
                        errOut := st.errOut ++ (if bg = JBG then "bg" else "fg") ++ ": no job to resume\n" })
      | (some t, lj1) =>
          let st := { st with lastJob := lj1 }
          let tmp := jobAt st.jobs t
          if bg = JBG ∧ tmp.state = JState.JRUNNING then
            (1, { st with errOut := st.errOut ++ bufStr tmp.cmd ++ ": job already in background\n" })
          else
            let st := { st with out := st.out ++ "[" ++ toString tmp.jid ++ "]+ Resumed\t" ++ bufStr tmp.cmd ++ "\n" }
            if bg = JBG then (0, send_to_background st t) else (0, send_to_foreground st t)

/-! ## Built-in commands (internal_cmd) and the launcher (start_cmd) -/

/-- The echo print loop: arguments separated by single spaces (a space
is printed after an argument exactly when another argument follows). -/
def joinSp : List String → String
  | [] => ""
  | [a] => a
  | a :: rest => a ++ " " ++ joinSp rest

/-- Lowercase hex rendering of the %x conversion of an int. -/
def hexOfInt (i : Int) : String := String.mk (Nat.toDigits 16 (i % 2 ^ 32).toNat)

/-- The canned help text of dipslay_help, kept abstract. -/
def helpText : String := "MiniShell help\n"

/-- The strerror text, kept abstract. -/
def strerrorStr : String := "error"

/-- internal_cmd: dispatch over hash_cmd cmd. Returns the status and the
updated state; -1 is the not-a-built-in sentinel (the state is then
untouched). EndOfFile (exit(0)) is recorded as the exitShell event.
Note that apart from the hash dispatch every branch reads argv, never
cmd: the cd error message prints argv[0] + 1, not the directory. -/
def internal_cmd (st : St) (cmd : String) (argv : List String) : Int × St :=
  let h := hash_cmd cmd
  if h = EXIT then (0, addEvent st Event.exitShell)
  else if h = ECHO then
    match argv.get? 1 with
    | none => (0, st)
    | some a1 =>
        if hash_cmd a1 = ECHO_STATUS then
          (0, { st with out := st.out ++ toString st.laststatus ++ " " ++ joinSp (argv.drop 2) ++ "\n" })
        else
          (0, { st with out := st.out ++ joinSp (argv.drop 1) ++ "\n" })
  else if h = CD then
    match argv.get? 1 with
    | none => (0, st)
    | some d =>
        let (ok, st) := popChdir st
        let st := addEvent st (Event.chdirEv d)
        if ok then (0, st)
        else
          (1, { st with errOut := st.errOut ++ "Unable to change directory: " ++ strerrorStr ++
                          " (" ++ (argv.headD "").drop 1 ++ ")\n" })
  else if h = HELP then (0, { st with out := st.out ++ helpText })
  else if h = HASHC then
    match argv.get? 1 with
    | none => (1, { st with errOut := st.errOut ++ "hash: no argument to hash\n" })
    | some a1 => (0, { st with out := st.out ++ hexOfInt (hash_cmd a1) ++ "\n" })
  else if h = JOBS then
    (0, (List.range MAXJOBS).foldl
          (fun st i =>
            if (jobAt st.jobs i).pid ≠ 0 then
              { st with out := st.out ++ display_job (jobAt st.jobs i) }
            else st)
          st)
  else if h = CFG then cmd_jobctrl st (argv.get? 1) JFG
  else if h = CBG then cmd_jobctrl st (argv.get? 1) JBG
  else (-1, st)

/-- The job-table-full diagnostic of start_cmd and start_sequence. -/
def jobFullMsg : String :=
  "Unable to register a new job, terminate some jobs first (max: 32)\n"

/-- start_cmd: run a built-in in place, otherwise fork (the child execs
cmd in its own group; recorded as one forkExec event), register the
child, and launch it: for a foreground job return its recorded status
after the wait, for a background job the INTERNSTATUS sentinel. When the
table is full the error is reported and INTERNSTATUS + 1 returned with
the child left unregistered. -/
def start_cmd (st : St) (cmd : String) (argv : List String) (options : Nat)
    (notify : Bool) : Int × St :=
  let (ws, st1) := internal_cmd st cmd argv
  if ws ≠ -1 then (ws, st1)
  else
    let (pid, st2) := popPid st1
    let st2 := addEvent st2 (Event.forkExec pid cmd)
    match register_job st2.jobs pid pid options (some cmd.data) with
    | none => (INTERNSTATUS + 1, { st2 with errOut := st2.errOut ++ jobFullMsg })
    | some (i, jobs1) =>
        let st3 := { st2 with jobs := jobs1 }
        let st4 := launch_job st3 i notify
        if options = JFG then ((jobAt st4.jobs i).status, st4)
        else (INTERNSTATUS, st4)

/-! ## Expression trees (Shell.h) -/

/-- The three sequence node types. -/
inductive SeqTy where
  | seq
  | et
  | ou
deriving DecidableEq, Repr

/-- The five redirection node types. -/
inductive RedirTy where
  | rIn
  | rOut
  | rApp
  | rErr
  | rErrOut
deriving DecidableEq, Repr

/-- The expression tree, as the tagged variant the parser produces: argv
for SIMPLE, filename plus child for the redirections, and left and right
children for the composites. -/
inductive Expression where
  | vide
  | simple (arguments : List String)
  | seqNode (ty : SeqTy) (gauche droite : Expression)
  | bgNode (gauche : Expression)
  | pipeNode (gauche droite : Expression)
  | redir (ty : RedirTy) (file : String) (gauche : Expression)
deriving DecidableEq, Repr

/-! ## lay_redirection and its error ladder -/

/-- The err label of lay_redirection: report the filename and cause on
stderr and return -1. Nothing is closed here. -/
def redirErr (file : String) (st : St) : Int × St :=
  (-1, { st with errOut := st.errOut ++ file ++ ": " ++ strerrorStr ++ "\n" })

/-- The err2 label: close fd, then fall through to err. -/
def redirErr2 (file : String) (fd : Nat) (st : St) : Int × St :=
  let (_, st) := closeFd st fd
  redirErr file st

/-- The err3 label: close in, then fall through to err2. -/
def redirErr3 (file : String) (fd inF : Nat) (st : St) : Int × St :=
  let (_, st) := closeFd st inF
  redirErr2 file fd st

/-- The err4 label: close out, then fall through to err3. -/
def redirErr4 (file : String) (fd inF outF : Nat) (st : St) : Int × St :=
  let (_, st) := closeFd st outF
  redirErr3 file fd inF st

/-- The tail of lay_redirection after the redirection is in place:
evaluate the subexpression, then restore stdin, stdout and stderr from
the saves in that order, closing each save, and finally close the opened
file; each failure jumps into the error ladder exactly as the gotos do. -/
def layRedirBody (file : String) (fd outF inF errF : Nat) (evalL : St → Int × St)
    (st : St) : Int × St :=
  let (ws, st) := evalL st
  let (ok, st) := dup2Fd st inF 0
  if !ok then redirErr2 file fd st else
  let (ok, st) := closeFd st inF
  if !ok then redirErr2 file fd st else
  let (ok, st) := dup2Fd st outF 1
  if !ok then redirErr3 file fd inF st else
  let (ok, st) := closeFd st outF
  if !ok then redirErr3 file fd inF st else
  let (ok, st) := dup2Fd st errF 2
  if !ok then redirErr4 file fd inF outF st else
  let (ok, st) := closeFd st errF
  if !ok then redirErr4 file fd inF outF st else
  let (ok, st) := closeFd st fd
  if !ok then redirErr file st else
  (ws, st)

/-- lay_redirection: save stdout, stdin and stderr (in that order), open
the target, alias the standard descriptor(s) chosen by the node type to
it (REDIRECTION_EO falls through from stderr to stdout), run the
subexpression, and restore everything. evalL is the recursive evaluation
of the left child. -/
def lay_redirection (ty : RedirTy) (file : String) (evalL : St → Int × St)
    (st : St) : Int × St :=
  let (outF?, st) := dupFd st 1
  let (inF?, st) := dupFd st 0
  let (errF?, st) := dupFd st 2
  match outF?, inF?, errF? with
  | some outF, some inF, some errF =>
      (match openFd st file with
       | (none, st) => redirErr file st
       | (some fd, st) =>
           match ty with
           | RedirTy.rIn =>
               let (ok, st) := dup2Fd st fd 0
               if !ok then redirErr2 file fd st
               else layRedirBody file fd outF inF errF evalL st
           | RedirTy.rErr =>
               let (ok, st) := dup2Fd st fd 2
               if !ok then redirErr2 file fd st
               else layRedirBody file fd outF inF errF evalL st
           | RedirTy.rErrOut =>
               let (ok, st) := dup2Fd st fd 2
               if !ok then redirErr2 file fd st else
               let (ok, st) := dup2Fd st fd 1
               if !ok then redirErr2 file fd st
               else layRedirBody file fd outF inF errF evalL st
           | RedirTy.rApp =>
               let (ok, st) := dup2Fd st fd 1
               if !ok then redirErr2 file fd st
               else layRedirBody file fd outF inF errF evalL st
           | RedirTy.rOut =>
               let (ok, st) := dup2Fd st fd 1
               if !ok then redirErr2 file fd st
               else layRedirBody file fd outF inF errF evalL st)
  | _, _, _ => redirErr file st

/-! ## lay_pipeline -/

/-- The err label of lay_pipeline: perror and return -1; nothing is
closed. -/
def pipeErr (st : St) : Int × St :=
  (-1, { st with errOut := st.errOut ++ "Unable to set pipe: " ++ strerrorStr ++ "\n" })

/-- lay_pipeline: create the pipe, save stdout and stdin, feed the read
end to stdin and run the right side in the background, then restore
stdin, feed the write end to stdout and run the left side with the
caller's options, restore stdout and close the saves. The right side's
status is discarded; the left side's is returned. -/
def lay_pipeline (evalR evalL : St → Int × St) (st : St) : Int × St :=
  match pipe2M st with
  | (none, st) => pipeErr st
  | (some (p0, p1), st) =>
      let (outF?, st) := dupFd st 1
      let (inF?, st) := dupFd st 0
      match outF?, inF? with
      | some outF, some inF =>
          let (ok, st) := dup2Fd st p0 0
          if !ok then pipeErr st else
          let (ok, st) := closeFd st p0
          if !ok then pipeErr st else
          let (_, st) := evalR st
          let (ok, st) := dup2Fd st inF 0
          if !ok then pipeErr st else
          let (ok, st) := dup2Fd st p1 1
          if !ok then pipeErr st else
          let (ok, st) := closeFd st p1
          if !ok then pipeErr st else
          let (ws, st) := evalL st
          let (ok, st) := dup2Fd st outF 1
          if !ok then pipeErr st else
          let (ok, st) := closeFd st outF
          if !ok then pipeErr st else
          let (ok, st) := closeFd st inF
          if !ok then pipeErr st else
          (ws, st)
      | _, _ => pipeErr st

/-! ## start_sequence -/

/-- start_sequence: a background sequence forks a child (which runs the
sequence in the foreground inside its own process and group; those
child-side effects are not visible in the parent state modelled here),
registers it under the name Sequence and launches it, returning the
INTERNSTATUS sentinel (or the table-full status). A foreground sequence
evaluates the left child, canonicalizes its status, gates the right
child on the node type, and canonicalizes the result. -/
def start_sequence (ty : SeqTy) (evalL evalR : St → Int × St) (options : Nat)
    (notify : Bool) (st : St) : Int × St :=
  if options = JBG then
    let (pid, st) := popPid st
    let st := addEvent st (Event.forkExec pid "Sequence")
    match register_job st.jobs pid pid JBG (some "Sequence".data) with
    | none => (INTERNSTATUS + 1, { st with errOut := st.errOut ++ jobFullMsg })
    | some (i, jobs1) =>
        let st := { st with jobs := jobs1 }
        (INTERNSTATUS, launch_job st i notify)
  else
    let (ws, st) := evalL st
    let c := STATUS ws
    match ty with
    | SeqTy.et =>
        if c ≠ 0 then (STATUS c, st)
        else
          let (ws2, st) := evalR st
          (STATUS ws2, st)
    | SeqTy.ou =>
        if c = 0 then (STATUS c, st)
        else
          let (ws2, st) := evalR st
          (STATUS ws2, st)
    | SeqTy.seq =>
        let (ws2, st) := evalR st
        (STATUS ws2, st)

/-! ## expression_handler and evaluer_expr -/

/-- expression_handler: the recursive dispatch on the node type. The
subexpression evaluations are passed to the layer functions as closures,
always with notify 0, exactly as in the source. -/
def expression_handler : Expression → Nat → Bool → St → Int × St
  | Expression.redir ty file g, options, _notify, st =>
      lay_redirection ty file (fun s => expression_handler g options false s) st
  | Expression.vide, _, _, st => (INTERNSTATUS, st)
  | Expression.seqNode ty g d, options, notify, st =>
      start_sequence ty (fun s => expression_handler g options false s)
        (fun s => expression_handler d options false s) options notify st
  | Expression.pipeNode g d, options, _notify, st =>
      lay_pipeline (fun s => expression_handler d JBG false s)
        (fun s => expression_handler g options false s) st
  | Expression.bgNode g, _options, notify, st =>
      expression_handler g JBG notify st
  | Expression.simple args, options, notify, st =>
      start_cmd st (args.headD "") args options notify

/-- evaluer_expr: the top-level entry, with shell initialization assumed
already done (the setjmp retry logic of a failing init_shell is not
modelled). Evaluate in the foreground with notify = interactive, run the
reaper, canonicalize, prefer a nonzero foreground-job status, store
laststatus, print the fault notice for a signalled foreground job,
remove done jobs and reset fg_job. -/
def evaluer_expr (e : Expression) (st : St) : Int × St :=
  let (ws, st) := expression_handler e JFG st.interactive st
  let st := grim_reaper st
  let ws := STATUS ws
  let ws :=
    match st.fgJob with
    | some i => if (jobAt st.jobs i).status ≠ 0 then (jobAt st.jobs i).status else ws
    | none => ws
  let st := { st with laststatus := ws }
  let st :=
    match st.fgJob with
    | some i =>
        if st.interactive then
          let j := jobAt st.jobs i
          if j.termsig = SIGSEGVn then
            { st with errOut := st.errOut ++ bufStr j.cmd ++ ": Segmentation fault.\n" }
          else if j.termsig = SIGKILLn ∨ j.termsig = SIGTERMn then
            { st with errOut := st.errOut ++ bufStr j.cmd ++ ": Terminated.\n" }
          else st
        else st
    | none => st
  let st := remove_old_jobs st st.interactive
  let st := { st with fgJob := none }
  (ws, st)

/-! ## Concrete states and expressions used by the theorems -/

/-- A freshly initialized interactive shell state: shell pid 50, the
standard descriptors 0, 1, 2 on kernel descriptions 100, 101, 102, an
empty job table, last_job pointing at slot 0 as after init, and oracles
for one external command (fork pid 100, exit status 1 on the foreground
wait, the reaper finding the already-reaped child gone). -/
def stScen : St :=
  { interactive := true, shpid := 50, fds := [(0, 100), (1, 101), (2, 102)],
    nextDesc := 103, sysOk := [], jobs := List.replicate MAXJOBS initJob,
    lastJob := some 0, fgJob := none, laststatus := 0, pids := [100],
    waits := [WaitKind.exited 1], reaps := [ReapRes.gone], chdirOks := [],
    out := "", errOut := "", events := [] }

/-- The expression false && echo x. -/
def falseAndEcho : Expression :=
  Expression.seqNode SeqTy.et (Expression.simple ["false"]) (Expression.simple ["echo", "x"])

/-- The expression false || echo x. -/
def falseOrEcho : Expression :=
  Expression.seqNode SeqTy.ou (Expression.simple ["false"]) (Expression.simple ["echo", "x"])

/-- A redirection node: the subexpression is empty because the failure
paths under study never reach it. -/
def redirE : Expression := Expression.redir RedirTy.rOut "f" Expression.vide

/-- State for the first redirection failure path: the three saving dups
succeed, then open fails. -/
def stR1 : St := { stScen with sysOk := [true, true, true, false] }

/-- State for the second redirection failure path: everything succeeds
until the dup2 restoring stdout fails (the two ladder closes after it
succeed). -/
def stR2 : St :=
  { stScen with sysOk := [true, true, true, true, true, true, true, false, true, true] }

/-- State for the stopped-foreground-job run: the foreground wait
reports that the child was stopped (the terminal's Ctrl-Z goes straight
to the child group while the shell is blocked in waitpid). -/
def stStop : St := { stScen with waits := [WaitKind.stopped 20] }

/-- A job table with every slot occupied by a running job (pids 1..32). -/
def fullJobs : List Job :=
  (List.range MAXJOBS).map
    (fun i => { initJob with jid := i, pid := i + 1, pgid := i + 1, state := JState.JRUNNING })

/-- A shell state whose job table is full. -/
def stFullW : St := { stScen with jobs := fullJobs }

/-- A state with a foreground job in slot 0 (pid and pgid 100), as
during a foreground wait. -/
def stFgW : St :=
  { stScen with
      fgJob := some 0,
      jobs := (List.replicate MAXJOBS initJob).set 0
        { initJob with jid := 0, pid := 100, pgid := 100, background := JFG,
                       state := JState.JRUNNING, cmd := storeCmd initJob.cmd "sleep".data } }

/-- A job table for the selection witness: a stopped job with pid 5 in
slot 0 and a running background job with pid 9 in slot 1. -/
def jobsSelW : List Job :=
  ((List.replicate MAXJOBS initJob).set 0
      { initJob with jid := 0, pid := 5, pgid := 5, background := JBG,
                     state := JState.JSTOPPED }).set 1
    { initJob with jid := 1, pid := 9, pgid := 9, background := JBG,
                   state := JState.JRUNNING }

/-- Invariant P3 as a boolean predicate on the job table: every STOPPED
slot has background JBG. -/
def stoppedIsBG (jobs : List Job) : Bool :=
  (List.range MAXJOBS).all
    (fun i => !((jobAt jobs i).state == JState.JSTOPPED) || ((jobAt jobs i).background == JBG))

/-- The output the echo built-in produces for a given last status and
argument list (arguments after the command name): nothing at all for an
empty list; otherwise the arguments joined by single spaces and a
newline, with the status and a space prepended instead of the first
argument when that argument hashes as the status token. -/
def echoOut (ls : Int) : List String → String
  | [] => ""
  | a :: rest =>
      if hash_cmd a = ECHO_STATUS then toString ls ++ " " ++ joinSp rest ++ "\n"
      else joinSp (a :: rest) ++ "\n"

/-! ## Sanity checks of the embedding -/

example : hash_cmd "cd" = CD := by decide
example : hash_cmd "bg" = CBG := by decide
example : hash_cmd "fg" = CFG := by decide
example : hash_cmd "hash" = HASHC := by decide
example : hash_cmd "help" = HELP := by decide
example : hash_cmd "echo" = ECHO := by decide
example : hash_cmd "exit" = EXIT := by decide
example : hash_cmd "jobs" = JOBS := by decide
example : hash_cmd "$?" = ECHO_STATUS := by decide
example : (storeCmd initJob.cmd "ls".data).take 3 = ['l', 's', nulc] := by decide
example : register_job [] 5 5 JFG none = none := by decide

/-! ## Helper lemmas -/

/-- popPid always returns the head of the pid oracle (default 1) and the
state with its tail. -/
theorem popPid_eq (st : St) :
    popPid st = (st.pids.headD 1, { st with pids := st.pids.tail }) := by
  rcases st with ⟨a1, a2, a3, a4, a5, a6, a7, a8, a9, ps, a11, a12, a13, a14, a15, a16⟩
  cases ps <;> rfl

/-- The most-recent fold keeps an occupied non-DONE candidate, never
decreases its pid, and ends at least as high as every occupied non-DONE
index it scanned. -/
theorem maxScan_fold_spec (jobs : List Job) (L : List Nat) (t0 : Nat)
    (h0 : activeAt jobs t0 = true) :
    activeAt jobs (L.foldl (maxStep jobs) t0) = true ∧
    (jobAt jobs t0).pid ≤ (jobAt jobs (L.foldl (maxStep jobs) t0)).pid ∧
    ∀ i ∈ L, activeAt jobs i = true →
      (jobAt jobs i).pid ≤ (jobAt jobs (L.foldl (maxStep jobs) t0)).pid := by
  induction L generalizing t0 with
  | nil => exact ⟨h0, le_refl _, by simp⟩
  | cons i L ih =>
      simp only [List.foldl_cons]
      by_cases hc :
          (activeAt jobs i && decide ((jobAt jobs t0).pid ≤ (jobAt jobs i).pid)) = true
      · have hstep : maxStep jobs t0 i = i := by rw [maxStep, if_pos hc]
        rw [hstep]
        obtain ⟨hact, hled⟩ := Bool.and_eq_true_iff.1 hc
        have hle : (jobAt jobs t0).pid ≤ (jobAt jobs i).pid := of_decide_eq_true hled
        obtain ⟨a1, a2, a3⟩ := ih i hact
        refine ⟨a1, le_trans hle a2, ?_⟩
        intro j hj hactj
        rcases List.mem_cons.1 hj with h | h
        · subst h; exact a2
        · exact a3 j h hactj
      · have hstep : maxStep jobs t0 i = t0 := by rw [maxStep, if_neg hc]
        rw [hstep]
        obtain ⟨a1, a2, a3⟩ := ih t0 h0
        refine ⟨a1, a2, ?_⟩
        intro j hj hactj
        rcases List.mem_cons.1 hj with h | h
        · subst h
          have hnle : ¬ (jobAt jobs t0).pid ≤ (jobAt jobs j).pid := by
            intro hle
            exact hc (by rw [hactj, decide_eq_true hle]; rfl)
          exact le_trans (le_of_lt (lt_of_not_le hnle)) a2
        · exact a3 j h hactj

/-- The selected candidate of maxScan is occupied, non-DONE, and of
maximal pid among occupied non-DONE slots. -/
theorem maxScan_spec (jobs : List Job) (k : Nat) (hk : activeAt jobs k = true) :
    activeAt jobs (maxScan jobs k) = true ∧
    ∀ i, i < MAXJOBS → activeAt jobs i = true →
      (jobAt jobs i).pid ≤ (jobAt jobs (maxScan jobs k)).pid := by
  obtain ⟨a1, _, a3⟩ := maxScan_fold_spec jobs (List.range MAXJOBS) k hk
  exact ⟨a1, fun i hi ha => a3 i (List.mem_range.2 hi) ha⟩

/-- A found first-active index is in range and active. -/
theorem findFirstActive_some (jobs : List Job) (k : Nat)
    (h : findFirstActive jobs = some k) :
    k < MAXJOBS ∧ activeAt jobs k = true := by
  unfold findFirstActive at h
  exact ⟨List.mem_range.1 (List.mem_of_find?_eq_some h), List.find?_some h⟩

/-- When the rescan finds nothing, no slot is active. -/
theorem findFirstActive_none (jobs : List Job) (h : findFirstActive jobs = none) :
    ∀ i, i < MAXJOBS → activeAt jobs i = false := by
  unfold findFirstActive at h
  intro i hi
  have := List.find?_eq_none.1 h i (List.mem_range.2 hi)
  simpa using this

/-- When every slot is inactive, the rescan finds nothing. -/
theorem findFirstActive_eq_none (jobs : List Job)
    (h : ∀ i, i < MAXJOBS → activeAt jobs i = false) :
    findFirstActive jobs = none := by
  unfold findFirstActive
  exact List.find?_eq_none.2 (fun i hi => by simp [h i (List.mem_range.1 hi)])

/-- A command name whose hash matches no built-in constant makes
internal_cmd return the -1 sentinel with the state untouched. -/
theorem internal_cmd_not_builtin (st : St) (cmd : String) (argv : List String)
    (h1 : hash_cmd cmd ≠ EXIT) (h2 : hash_cmd cmd ≠ ECHO) (h3 : hash_cmd cmd ≠ CD)
    (h4 : hash_cmd cmd ≠ HELP) (h5 : hash_cmd cmd ≠ HASHC) (h6 : hash_cmd cmd ≠ JOBS)
    (h7 : hash_cmd cmd ≠ CFG) (h8 : hash_cmd cmd ≠ CBG) :
    internal_cmd st cmd argv = (-1, st) := by
  simp only [internal_cmd]
  rw [if_neg h1, if_neg h2, if_neg h3, if_neg h4, if_neg h5, if_neg h6, if_neg h7, if_neg h8]

/-- register_job on a table whose every slot is occupied returns none
(and in particular leaves the table unchanged). -/
theorem register_job_full (jobs : List Job) (h : ∀ j ∈ jobs, j.pid ≠ 0)
    (pid pgid bg : Nat) (cmd : Option (List Char)) :
    register_job jobs pid pgid bg cmd = none := by
  unfold register_job
  have hidx : jobs.findIdx? (fun j => j.pid == 0) = none := by
    rw [List.findIdx?_eq_none_iff]
    intro j hj
    simp [h j hj]
  rw [hidx]

/-! ## Claim theorems -/

/-- Claim C5, counterexample: canonicalization is not idempotent on
every integer status. At -129 one application gives -1 and a second
gives 127, and the single application already leaves the user-visible
range (it is negative). -/
theorem STATUS_not_idempotent_counterexample :
    STATUS (STATUS (-129)) ≠ STATUS (-129) ∧ STATUS (-129) < 0 := by decide

/-- Claim C5, amended: for statuses at or above the INTERNSTATUS
sentinel -128 (the only statuses the evaluator produces),
canonicalization is idempotent and lands at or above 0; the sentinel
canonicalizes to 0; and statuses that in addition are at most 255 land
within 0..255. -/
theorem STATUS_idempotent_amended (s : Int) (h : INTERNSTATUS ≤ s) :
    STATUS (STATUS s) = STATUS s ∧ 0 ≤ STATUS s ∧ STATUS INTERNSTATUS = 0 ∧
      (s ≤ 255 → STATUS s ≤ 255) := by
  refine ⟨?_, ?_, by decide, ?_⟩
  · simp only [STATUS, INTERNSTATUS] at *
    split_ifs <;> omega
  · simp only [STATUS, INTERNSTATUS] at *
    split_ifs <;> omega
  · intro hs
    simp only [STATUS, INTERNSTATUS] at *
    split_ifs <;> omega

/-- Witness for the amended C5 theorem at the concrete status -128. -/
theorem STATUS_idempotent_amended_witness :
    STATUS (STATUS (-128)) = STATUS (-128) ∧ 0 ≤ STATUS (-128) ∧
      STATUS INTERNSTATUS = 0 ∧ ((-128 : Int) ≤ 255 → STATUS (-128) ≤ 255) :=
  STATUS_idempotent_amended (-128) (by decide)

set_option maxRecDepth 100000 in
/-- Claim C3: the stopped-is-bg invariant P3 is violated by the code.
Launching sleep in the foreground from a table satisfying P3, with the
wait reporting that the child was stopped (a Ctrl-Z typed during the
foreground wait goes straight to the child group), leaves slot 0 in
state STOPPED with background still FG: launch_job forces the state to
STOPPED without touching background, and set_status_job on a stop
likewise never sets background to JBG. -/
theorem launch_job_fg_stop_violates_stopped_is_bg :
    stoppedIsBG stStop.jobs = true ∧
    stoppedIsBG (start_cmd stStop "sleep" ["sleep", "10"] JFG false).2.jobs = false ∧
    (jobAt (start_cmd stStop "sleep" ["sleep", "10"] JFG false).2.jobs 0).state
      = JState.JSTOPPED ∧
    (jobAt (start_cmd stStop "sleep" ["sleep", "10"] JFG false).2.jobs 0).background
      = JFG := by decide

set_option maxRecDepth 10000 in
/-- Claim C9: a command name of CMDBUFSZ (16) characters is copied whole
into the slot buffer: all 16 bytes of the name are stored (more than the
claimed CMDBUFSZ - 1) and no NUL terminator is ever written, so the
stored buffer is not null-terminated. -/
theorem register_job_cmd16_unterminated :
    storeCmd initJob.cmd "abcdefghijklmnop".data = "abcdefghijklmnop".data ∧
    nulc ∉ storeCmd initJob.cmd "abcdefghijklmnop".data ∧
    (storeCmd initJob.cmd "abcdefghijklmnop".data).length = CMDBUFSZ ∧
    (register_job (List.replicate MAXJOBS initJob) 7 7 JFG
        (some "abcdefghijklmnop".data)).map (fun p => (jobAt p.2 p.1).cmd)
      = some "abcdefghijklmnop".data := by decide

set_option maxRecDepth 400000 in
/-- Claim C1: the redirection cleanup ladder does not restore and close
on every failure path. First run (state stR1): the three saving dups
succeed, the open of the target fails, and the code jumps to the err
label, which closes nothing: the evaluation returns -1 with the three
save descriptors 3, 4 and 5 still open on the descriptions of stdout,
stdin and stderr (the standard descriptors themselves are unchanged).
Second run (state stR2): the redirection succeeds, and during
restoration the dup2 that should restore stdout fails: the evaluation
returns -1 with stdout left on the opened file's description 103 instead
of the original 101, and save descriptors 3 and 5 still open. -/
theorem lay_redirection_cleanup_ladder_leaks :
    (expression_handler redirE JFG false stR1).1 = -1 ∧
    fdLookup (expression_handler redirE JFG false stR1).2 3 = some 101 ∧
    fdLookup (expression_handler redirE JFG false stR1).2 4 = some 100 ∧
    fdLookup (expression_handler redirE JFG false stR1).2 5 = some 102 ∧
    fdLookup (expression_handler redirE JFG false stR1).2 0 = some 100 ∧
    fdLookup (expression_handler redirE JFG false stR1).2 1 = some 101 ∧
    fdLookup (expression_handler redirE JFG false stR1).2 2 = some 102 ∧
    (expression_handler redirE JFG false stR2).1 = -1 ∧
    fdLookup (expression_handler redirE JFG false stR2).2 1 = some 103 ∧
    fdLookup (expression_handler redirE JFG false stR2).2 1 ≠ some 101 ∧
    fdLookup (expression_handler redirE JFG false stR2).2 3 = some 101 ∧
    fdLookup (expression_handler redirE JFG false stR2).2 5 = some 102 := by decide

/-- Claim C4, counterexample: with a foreground job of pid and pgid 100,
the SIGTSTP handler emits a kill directed at the process (positive pid
argument), and no group-directed kill (negative pid or killpg) is ever
emitted, contradicting the claim that the stop signal is sent to the
foreground job's process group. -/
theorem sig_handler_tstp_counterexample :
    (sig_handler stFgW Signo.SIGTSTP).events
      = [Event.kill (KillTarget.toProcess 100) Signo.SIGTSTP] ∧
    Event.kill (KillTarget.toGroup 100) Signo.SIGTSTP
      ∉ (sig_handler stFgW Signo.SIGTSTP).events := by decide

/-- Claim C4, amended: whenever the SIGTSTP handler runs with fg_job
set, it sends the stop signal to the foreground job's process (a kill on
its pid, the group leader), sets the job's state to STOPPED and its
background to BG, and sets last_job to that job; with fg_job null the
handler does nothing. -/
theorem sig_handler_tstp_spec :
    (∀ (st : St) (i : Nat), st.fgJob = some i →
        sig_handler st Signo.SIGTSTP =
          { st with
              events := st.events ++
                [Event.kill (KillTarget.toProcess (jobAt st.jobs i).pid) Signo.SIGTSTP],
              jobs := st.jobs.set i
                { jobAt st.jobs i with state := JState.JSTOPPED, background := JBG },
              lastJob := some i }) ∧
    (∀ st : St, st.fgJob = none → sig_handler st Signo.SIGTSTP = st) := by
  constructor
  · intro st i h
    have hs : sig_handler st Signo.SIGTSTP = suspend_job st i := by
      unfold sig_handler
      rw [h]
    rw [hs]
    rfl
  · intro st h
    have hs : sig_handler st Signo.SIGTSTP = st := by
      unfold sig_handler
      rw [h]
    exact hs

/-- Witness for the amended C4 theorem at the concrete foreground state
stFgW and at the same state with fg_job cleared. -/
theorem sig_handler_tstp_spec_witness :
    sig_handler stFgW Signo.SIGTSTP =
      { stFgW with
          events := stFgW.events ++
            [Event.kill (KillTarget.toProcess (jobAt stFgW.jobs 0).pid) Signo.SIGTSTP],
          jobs := stFgW.jobs.set 0
            { jobAt stFgW.jobs 0 with state := JState.JSTOPPED, background := JBG },
          lastJob := some 0 } ∧
    sig_handler { stFgW with fgJob := none } Signo.SIGTSTP = { stFgW with fgJob := none } :=
  ⟨sig_handler_tstp_spec.1 stFgW 0 rfl, sig_handler_tstp_spec.2 { stFgW with fgJob := none } rfl⟩

/-- Claim C8, counterexample: echo invoked with no arguments returns
status 0 but prints nothing at all, not the claimed lone trailing
newline (the starting out buffer is empty, so the claim would require
the final buffer to be a newline). -/
theorem echo_no_args_counterexample :
    internal_cmd stScen "echo" ["echo"] = (0, stScen) ∧
    (internal_cmd stScen "echo" ["echo"]).2.out = "" ∧ ("" : String) ≠ "\n" := by decide

/-- Claim C8, amended: echo always returns status 0; with no arguments
it prints nothing; with arguments it prints them separated by single
spaces with one trailing newline, except that a first argument hashing
as the status token is consumed and replaced by the last top-level
status followed by a space (even when no further argument follows). In
particular echo hello writes exactly hello and a newline. -/
theorem echo_contract_amended :
    (∀ (st : St) (args : List String),
        internal_cmd st "echo" ("echo" :: args) =
          (0, { st with out := st.out ++ echoOut st.laststatus args })) ∧
    (∀ st : St, start_cmd st "echo" ["echo", "hello"] JFG false =
        (0, { st with out := st.out ++ "hello\n" })) := by
  have hh : hash_cmd "echo" = ECHO := by decide
  have hne : ¬ (ECHO = EXIT) := by decide
  have h1 : ∀ (st : St) (args : List String),
      internal_cmd st "echo" ("echo" :: args) =
        (0, { st with out := st.out ++ echoOut st.laststatus args }) := by
    intro st args
    simp only [internal_cmd, hh, if_true, if_neg hne]
    cases args with
    | nil =>
        simp only [List.get?, echoOut, String.append_empty]
    | cons a rest =>
        simp only [List.get?, echoOut, List.drop]
        by_cases hs : hash_cmd a = ECHO_STATUS
        · rw [if_pos hs, if_pos hs]
          simp [String.append_assoc]
        · rw [if_neg hs, if_neg hs]
          simp [String.append_assoc]
  refine ⟨h1, ?_⟩
  intro st
  have h2 := h1 st ["hello"]
  have h3 : echoOut st.laststatus ["hello"] = "hello\n" := by
    simp only [echoOut, joinSp]
    rw [if_neg (by decide : ¬ (hash_cmd "hello" = ECHO_STATUS))]
    rfl
  rw [h3] at h2
  simp only [start_cmd, h2]
  norm_num

/-- Claim C10: internal_cmd reads the command name only through
hash_cmd, so two names with equal hash dispatch identically on any
argument vector and state; the hash of exit is 0x4e65e; and any name
whose hash collides with it makes start_cmd terminate the shell
(the EndOfFile exit event) and return 0 without ever forking. -/
theorem internal_cmd_hash_dispatch :
    (∀ (st : St) (a b : String) (argv : List String), hash_cmd a = hash_cmd b →
        internal_cmd st a argv = internal_cmd st b argv) ∧
    hash_cmd "exit" = 0x4e65e ∧
    (∀ (st : St) (s : String) (argv : List String) (options : Nat) (notify : Bool),
        hash_cmd s = hash_cmd "exit" →
        start_cmd st s argv options notify = (0, addEvent st Event.exitShell)) := by
  refine ⟨?_, by decide, ?_⟩
  · intro st a b argv h
    simp only [internal_cmd, h]
  · intro st s argv options notify h
    have hs : hash_cmd s = EXIT := by rw [h]; decide
    have hic : internal_cmd st s argv = (0, addEvent st Event.exitShell) := by
      simp only [internal_cmd, hs, if_true]
    simp only [start_cmd, hic]
    norm_num

/-- Witness for C10: the genuinely colliding names ia and bb (both hash
to 0x1570) dispatch identically, and exit itself terminates the shell
without forking. -/
theorem internal_cmd_hash_dispatch_witness :
    internal_cmd stScen "ia" ["ia"] = internal_cmd stScen "bb" ["bb"] ∧
    start_cmd stScen "exit" ["exit"] JFG false = (0, addEvent stScen Event.exitShell) :=
  ⟨internal_cmd_hash_dispatch.1 stScen "ia" "bb" ["ia"] (by decide),
   internal_cmd_hash_dispatch.2.2 stScen "exit" ["exit"] JFG false rfl⟩

set_option maxRecDepth 400000 in
/-- Claim C2: sequence gating. A foreground SEQUENCE_AND evaluates the
right child exactly when the left child's canonicalized status is zero,
a foreground SEQUENCE_OR exactly when it is nonzero, and a plain
SEQUENCE always (the returned status is the canonicalized right status,
or the canonicalized left status when the right child is skipped). In
the concrete scenarios, false and-then echo x produces no output on
either stream and status 1, while false or-else echo x prints x and a
newline and returns status 0. -/
theorem start_sequence_gating :
    (∀ (l r : Expression) (notify : Bool) (st : St),
        expression_handler (Expression.seqNode SeqTy.et l r) JFG notify st =
          (let p := expression_handler l JFG false st
           if STATUS p.1 ≠ 0 then (STATUS (STATUS p.1), p.2)
           else
             let q := expression_handler r JFG false p.2
             (STATUS q.1, q.2))) ∧
    (∀ (l r : Expression) (notify : Bool) (st : St),
        expression_handler (Expression.seqNode SeqTy.ou l r) JFG notify st =
          (let p := expression_handler l JFG false st
           if STATUS p.1 = 0 then (STATUS (STATUS p.1), p.2)
           else
             let q := expression_handler r JFG false p.2
             (STATUS q.1, q.2))) ∧
    (∀ (l r : Expression) (notify : Bool) (st : St),
        expression_handler (Expression.seqNode SeqTy.seq l r) JFG notify st =
          (let p := expression_handler l JFG false st
           let q := expression_handler r JFG false p.2
           (STATUS q.1, q.2))) ∧
    (evaluer_expr falseAndEcho stScen).1 = 1 ∧
    (evaluer_expr falseAndEcho stScen).2.out = "" ∧
    (evaluer_expr falseAndEcho stScen).2.errOut = "" ∧
    (evaluer_expr falseOrEcho stScen).1 = 0 ∧
    (evaluer_expr falseOrEcho stScen).2.out = "x\n" := by
  have hne : ¬ (JFG = JBG) := by decide
  refine ⟨?_, ?_, ?_, ?_⟩
  · intro l r notify st
    simp only [expression_handler, start_sequence, if_neg hne]
  · intro l r notify st
    simp only [expression_handler, start_sequence, if_neg hne]
  · intro l r notify st
    simp only [expression_handler, start_sequence, if_neg hne]
  · exact ⟨by decide, by decide, by decide, by decide, by decide⟩

/-- Claim C7: launching an external command with every job-table slot
occupied. register_job returns none (FULL) without touching the table;
start_cmd has already forked (the forkExec event is recorded), reports
the exhaustion on stderr, and returns INTERNSTATUS + 1, a status
distinct from 0, from the ordinary failure status 1, and from -1; the
state is otherwise unchanged — in particular the child's pid appears
nowhere in the job table, which is exactly the table from before the
call. -/
theorem start_cmd_job_table_full (st : St) (cmd : String) (argv : List String)
    (options : Nat) (notify : Bool)
    (_hlen : st.jobs.length = MAXJOBS)
    (hfull : ∀ j ∈ st.jobs, j.pid ≠ 0)
    (h1 : hash_cmd cmd ≠ EXIT) (h2 : hash_cmd cmd ≠ ECHO) (h3 : hash_cmd cmd ≠ CD)
    (h4 : hash_cmd cmd ≠ HELP) (h5 : hash_cmd cmd ≠ HASHC) (h6 : hash_cmd cmd ≠ JOBS)
    (h7 : hash_cmd cmd ≠ CFG) (h8 : hash_cmd cmd ≠ CBG)
    (hfresh : ∀ j ∈ st.jobs, j.pid ≠ st.pids.headD 1) :
    register_job st.jobs (st.pids.headD 1) (st.pids.headD 1) options (some cmd.data)
      = none ∧
    start_cmd st cmd argv options notify =
      (INTERNSTATUS + 1,
        { st with pids := st.pids.tail,
                  events := st.events ++ [Event.forkExec (st.pids.headD 1) cmd],
                  errOut := st.errOut ++ jobFullMsg }) ∧
    INTERNSTATUS + 1 ≠ 0 ∧ INTERNSTATUS + 1 ≠ 1 ∧ INTERNSTATUS + 1 ≠ -1 ∧
    INTERNSTATUS + 1 ≠ INTERNSTATUS ∧
    (start_cmd st cmd argv options notify).2.jobs = st.jobs ∧
    ∀ j ∈ (start_cmd st cmd argv options notify).2.jobs, j.pid ≠ st.pids.headD 1 := by
  have hic := internal_cmd_not_builtin st cmd argv h1 h2 h3 h4 h5 h6 h7 h8
  have hreg := register_job_full st.jobs hfull (st.pids.headD 1) (st.pids.headD 1)
    options (some cmd.data)
  have hsc : start_cmd st cmd argv options notify =
      (INTERNSTATUS + 1,
        { st with pids := st.pids.tail,
                  events := st.events ++ [Event.forkExec (st.pids.headD 1) cmd],
                  errOut := st.errOut ++ jobFullMsg }) := by
    simp only [start_cmd, hic, popPid_eq, addEvent]
    rw [if_neg (fun h => h rfl)]
    rw [hreg]
  refine ⟨hreg, hsc, by decide, by decide, by decide, by decide, ?_, ?_⟩
  · rw [hsc]
  · rw [hsc]
    exact hfresh

/-- Witness for C7: the concrete full table of 32 running jobs with
pids 1..32, launching sleep with fork pid 100. -/
theorem start_cmd_job_table_full_witness :
    register_job stFullW.jobs (stFullW.pids.headD 1) (stFullW.pids.headD 1) JFG
      (some "sleep".data) = none ∧
    start_cmd stFullW "sleep" ["sleep", "10"] JFG false =
      (INTERNSTATUS + 1,
        { stFullW with pids := stFullW.pids.tail,
                       events := stFullW.events ++
                         [Event.forkExec (stFullW.pids.headD 1) "sleep"],
                       errOut := stFullW.errOut ++ jobFullMsg }) ∧
    INTERNSTATUS + 1 ≠ 0 ∧ INTERNSTATUS + 1 ≠ 1 ∧ INTERNSTATUS + 1 ≠ -1 ∧
    INTERNSTATUS + 1 ≠ INTERNSTATUS ∧
    (start_cmd stFullW "sleep" ["sleep", "10"] JFG false).2.jobs = stFullW.jobs ∧
    ∀ j ∈ (start_cmd stFullW "sleep" ["sleep", "10"] JFG false).2.jobs,
      j.pid ≠ stFullW.pids.headD 1 :=
  start_cmd_job_table_full stFullW "sleep" ["sleep", "10"] JFG false (by decide)
    (by decide) (by decide) (by decide) (by decide) (by decide) (by decide) (by decide)
    (by decide) (by decide) (by decide)

/-- Claim C6: default target selection of fg and bg without a name
argument, on tables whose cleared slots are DONE (unregistration only
happens on DONE slots, so this holds in reachable states). When some
occupied non-DONE slot exists, the selection — last_job, re-pointed by
the rescan when it is null or DONE — ends on an occupied non-DONE slot
whose pid is maximal among all occupied non-DONE slots. When no occupied
non-DONE slot exists, the selection fails without moving last_job, and
the command prints the no-job-to-resume error on stderr and returns
status 1 with the state otherwise completely unchanged. -/
theorem cmd_jobctrl_default_selection (jobs : List Job) (lj : Option Nat)
    (hlen : jobs.length = MAXJOBS)
    (hclr : ∀ i, i < MAXJOBS → (jobAt jobs i).pid = 0 →
      (jobAt jobs i).state = JState.JDONE) :
    ((∃ i, i < MAXJOBS ∧ activeAt jobs i = true) →
      ∃ t, (jcSelect jobs lj).1 = some t ∧ activeAt jobs t = true ∧
        ∀ i, i < MAXJOBS → activeAt jobs i = true →
          (jobAt jobs i).pid ≤ (jobAt jobs t).pid) ∧
    ((∀ i, i < MAXJOBS → activeAt jobs i = false) →
      jcSelect jobs lj = (none, lj) ∧
      ∀ (st : St) (bg : Nat), st.jobs = jobs → st.lastJob = lj →
        cmd_jobctrl st none bg =
          (1, { st with errOut := st.errOut ++
                  (if bg = JBG then "bg" else "fg") ++ ": no job to resume\n" })) := by
  have hbig : ∀ k, ¬ k < MAXJOBS → jobAt jobs k = initJob := by
    intro k hk
    rw [jobAt, List.getD_eq_default]
    omega
  have hactive_k : ∀ k, ¬ (jobAt jobs k).state = JState.JDONE →
      activeAt jobs k = true := by
    intro k hk
    by_cases hk32 : k < MAXJOBS
    · have hpid : (jobAt jobs k).pid ≠ 0 := fun h0 => hk (hclr k hk32 h0)
      simp [activeAt, hpid, hk]
    · exact absurd (by rw [hbig k hk32]; rfl) hk
  constructor
  · rintro ⟨i0, hi0, hact0⟩
    have hfaex : ∀ hno : findFirstActive jobs = none, False := by
      intro hno
      have := findFirstActive_none jobs hno i0 hi0
      rw [hact0] at this
      exact absurd this (by decide)
    cases hlj : lj with
    | none =>
        cases hfa : findFirstActive jobs with
        | none => exact absurd hfa fun h => hfaex h
        | some k =>
            obtain ⟨hk32, hkact⟩ := findFirstActive_some jobs k hfa
            have hknd : ¬ ((jobAt jobs k).state = JState.JDONE) := by
              simp [activeAt, Bool.and_eq_true, decide_eq_true_eq] at hkact
              exact hkact.2
            have hsel : (jcSelect jobs none).1 = some (maxScan jobs k) := by
              simp [jcSelect, hfa, hknd]
            obtain ⟨m1, m2⟩ := maxScan_spec jobs k hkact
            exact ⟨maxScan jobs k, hsel, m1, m2⟩
    | some k0 =>
        by_cases hs : (jobAt jobs k0).state = JState.JDONE
        · cases hfa : findFirstActive jobs with
          | none => exact absurd hfa fun h => hfaex h
          | some k =>
              obtain ⟨hk32, hkact⟩ := findFirstActive_some jobs k hfa
              have hknd : ¬ ((jobAt jobs k).state = JState.JDONE) := by
                simp [activeAt, Bool.and_eq_true, decide_eq_true_eq] at hkact
                exact hkact.2
              have hsel : (jcSelect jobs (some k0)).1 = some (maxScan jobs k) := by
                simp [jcSelect, hfa, hknd, hs]
              obtain ⟨m1, m2⟩ := maxScan_spec jobs k hkact
              exact ⟨maxScan jobs k, hsel, m1, m2⟩
        · have hk0act : activeAt jobs k0 = true := hactive_k k0 hs
          have hsel : (jcSelect jobs (some k0)).1 = some (maxScan jobs k0) := by
            simp [jcSelect, hs]
          obtain ⟨m1, m2⟩ := maxScan_spec jobs k0 hk0act
          exact ⟨maxScan jobs k0, hsel, m1, m2⟩
  · intro hnone
    have hfa := findFirstActive_eq_none jobs hnone
    have hsel : jcSelect jobs lj = (none, lj) := by
      cases lj with
      | none => simp [jcSelect, hfa]
      | some k =>
          by_cases hs : (jobAt jobs k).state = JState.JDONE
          · simp [jcSelect, hfa, hs]
          · exfalso
            have hkact := hactive_k k hs
            by_cases hk32 : k < MAXJOBS
            · rw [hnone k hk32] at hkact
              exact absurd hkact (by decide)
            · exact hs (by rw [hbig k hk32]; rfl)
    refine ⟨hsel, ?_⟩
    intro st bg hjobs hlast
    have hsel2 : jcSelect st.jobs st.lastJob = (none, st.lastJob) := by
      rw [hjobs, hlast]
      rw [hsel]
    simp only [cmd_jobctrl, hsel2]

/-- Witness for C6: on a table with a stopped pid-5 job in slot 0 and a
running pid-9 job in slot 1 the selection succeeds (necessarily on the
pid-9 slot, the maximal active pid), and on the empty table the
selection fails. -/
theorem cmd_jobctrl_default_selection_witness :
    (∃ t, (jcSelect jobsSelW (some 0)).1 = some t ∧ activeAt jobsSelW t = true ∧
      ∀ i, i < MAXJOBS → activeAt jobsSelW i = true →
        (jobAt jobsSelW i).pid ≤ (jobAt jobsSelW t).pid) ∧
    jcSelect (List.replicate MAXJOBS initJob) (some 0) = (none, some 0) :=
  ⟨(cmd_jobctrl_default_selection jobsSelW (some 0) (by decide) (by decide)).1
      ⟨0, by decide, by decide⟩,
   ((cmd_jobctrl_default_selection (List.replicate MAXJOBS initJob) (some 0) (by decide)
      (by decide)).2 (by decide)).1⟩
